import Mathlib

/-!
Verification of the shiritori (word-chaining) move-validation and
turn-orchestration engine.

The embedding models Python strings as lists of Unicode code points
(`List Nat`).  Pure functions of `app/shiritori.py` are translated as
Lean functions; the request handler `ai_move` of `app/main.py` is
translated as a function parameterized by the external generative
provider (an oracle giving the result of each generative call) and by
the random choice made inside the fallback table lookup.
-/

/-- A Python string, modelled as the list of its Unicode code points. -/
abbrev PyStr := List Nat

/-- Build a `PyStr` from a Lean string literal (stating convenience for
concrete inputs; definitions never depend on it). -/
def pystr (s : String) : PyStr := s.toList.map Char.toNat

/-- Python `str.isspace` on a single code point: the Unicode whitespace
set used by CPython (categories Zs/Zl/Zp plus bidirectional WS, B, S). -/
def isPySpace (n : Nat) : Bool :=
  (0x09 ≤ n && n ≤ 0x0D) || (0x1C ≤ n && n ≤ 0x1F) || n == 0x20 ||
  n == 0x85 || n == 0xA0 || n == 0x1680 || (0x2000 ≤ n && n ≤ 0x200A) ||
  n == 0x2028 || n == 0x2029 || n == 0x202F || n == 0x205F || n == 0x3000

/-- Python `str.strip()`: drop leading and trailing whitespace. -/
def pyStrip (s : PyStr) : PyStr :=
  ((s.dropWhile isPySpace).reverse.dropWhile isPySpace).reverse

/-- Membership in the character class `[ぁ-ゖー]` of `_HIRAGANA_RANGE`:
a canonical-syllabary (hiragana) character `ぁ` (U+3041) … `ゖ` (U+3096),
or the prolongation mark `ー` (U+30FC).  The same range test appears in
the first branch of the loop of `to_hiragana`. -/
def isCanonChar (n : Nat) : Bool :=
  (0x3041 ≤ n && n ≤ 0x3096) || n == 0x30FC

/-- Katakana range test `'ァ' <= ch <= 'ヺ'` (U+30A1 … U+30FA) from
`to_hiragana`. -/
def isKatakanaChar (n : Nat) : Bool :=
  0x30A1 ≤ n && n ≤ 0x30FA

/-- The code-point offset `ord("ぁ") - ord("ァ")`; the Python value is
negative (-0x60), so adding it is modelled as subtracting 0x60. -/
def _KATAKANA_TO_HIRAGANA_OFFSET : Nat := 0x60

/-- Loop body of `to_hiragana` over the already-stripped string:
skip whitespace; keep hiragana and the prolongation mark; map katakana
down by the fixed offset (the `ch == 'ー'` disjunct of the katakana
branch is unreachable, `ー` having been kept by the previous branch, and
is retained for fidelity); drop everything else. -/
def to_hiragana_core : PyStr → PyStr
  | [] => []
  | ch :: rest =>
    if isPySpace ch then to_hiragana_core rest
    else if isCanonChar ch then ch :: to_hiragana_core rest
    else if isKatakanaChar ch || ch == 0x30FC then
      (if ch == 0x30FC then ch else ch - _KATAKANA_TO_HIRAGANA_OFFSET) ::
        to_hiragana_core rest
    else to_hiragana_core rest

/-- Python `to_hiragana`: strip, then filter-map each character. -/
def to_hiragana (s : PyStr) : PyStr := to_hiragana_core (pyStrip s)

/-- Python `is_hiragana_only`: `re.match(r"^[ぁ-ゖー]+$", s)`.  The
regex matches the whole string, or — because `$` also matches just
before a final newline — the whole string minus one trailing `\n`
(U+000A). -/
def is_hiragana_only (s : PyStr) : Bool :=
  (!s.isEmpty && s.all isCanonChar) ||
  (s.getLast? == some 0x0A && (!s.dropLast.isEmpty && s.dropLast.all isCanonChar))

/-- The `_SMALL_TO_LARGE` table: small kana to the corresponding large
kana (ぁ→あ, ぃ→い, ぅ→う, ぇ→え, ぉ→お, っ→つ, ゃ→や, ゅ→ゆ, ょ→よ, ゎ→わ). -/
def _SMALL_TO_LARGE : List (Nat × Nat) :=
  [(0x3041, 0x3042), (0x3043, 0x3044), (0x3045, 0x3046),
   (0x3047, 0x3048), (0x3049, 0x304A),
   (0x3063, 0x3064), (0x3083, 0x3084), (0x3085, 0x3086), (0x3087, 0x3088),
   (0x308E, 0x308F)]

/-- Python `_SMALL_TO_LARGE.get(n, n)`. -/
def smallToLargeGet (n : Nat) : Nat :=
  match _SMALL_TO_LARGE.lookup n with
  | some m => m
  | none => n

/-- Python `strip_trailing_prolong_mark`: drop one trailing `ー` if
present. -/
def strip_trailing_prolong_mark (s : PyStr) : PyStr :=
  if s.getLast? == some 0x30FC then s.dropLast else s

/-- Python `normalize_last_char`: the effective tail syllable used for
chaining, or `none` when there is no usable last character. -/
def normalize_last_char (s : PyStr) : Option Nat :=
  if s.isEmpty then none
  else
    match (strip_trailing_prolong_mark s).getLast? with
    | none => none
    | some last => some (smallToLargeGet last)

/-- Python `violates_end_n`: after dropping one trailing `ー`, does the
word end in `ん` (U+3093)?  (`t.endswith("ん") if t else False`.) -/
def violates_end_n (s : PyStr) : Bool :=
  (strip_trailing_prolong_mark s).getLast? == some 0x3093

/-- Python `validate_user_move`: normalize, then check in order
non-empty, hiragana-only, not already used, not ending in ん, and (when
an expected head is supplied) head match after small→large mapping. -/
def validate_user_move (user_word : PyStr) (expected_head : Option Nat)
    (used : List PyStr) : Bool × String :=
  let w := to_hiragana user_word
  if w.isEmpty then (false, "ことばを入力してね")
  else if is_hiragana_only w = false then (false, "ひらがなだけで入力してね")
  else if w ∈ used then (false, "同じことばは使えないよ")
  else if violates_end_n w then (false, "『ん』で終わったのでまけだよ")
  else
    match expected_head with
    | some eh =>
      if smallToLargeGet (w.headD 0) ≠ eh then
        (false, "『" ++ String.singleton (Char.ofNat eh) ++ "』からはじめてね")
      else (true, "OK")
    | none => (true, "OK")

/-- Python `validate_ai_move`: normalize, then check in order
(non-empty and hiragana-only), head match after small→large mapping,
not already used, not ending in ん. -/
def validate_ai_move (ai_word : PyStr) (required_head : Nat)
    (used : List PyStr) : Bool × String :=
  let w := to_hiragana ai_word
  if (w.isEmpty || !is_hiragana_only w) then
    (false, "AIのことばがひらがなじゃないよ")
  else if smallToLargeGet (w.headD 0) ≠ required_head then
    (false, "AIの先頭文字が合っていないよ")
  else if w ∈ used then (false, "AIが同じことばを使ったよ")
  else if violates_end_n w then (false, "AIが『ん』で終わったよ")
  else (true, "OK")

/-- Python `next_required_head`. -/
def next_required_head (word : PyStr) : Option Nat :=
  normalize_last_char word

/-! ## The request handler of `app/main.py` -/

/-- The `FALLBACK_DICT` of `app/main.py`: head syllable → known words. -/
def FALLBACK_DICT : List (String × List String) := [
  ("あ", ["あり", "あめ", "あさ"]),
  ("い", ["いぬ", "いけ", "いか"]),
  ("う", ["うし", "うみ", "うた"]),
  ("え", ["えび", "えき", "えのぐ"]),
  ("お", ["おに", "おか", "おゆ"]),
  ("か", ["かめ", "かさ", "からす"]),
  ("き", ["きつね", "きのこ", "きりん"]),
  ("く", ["くま", "くき", "くるま"]),
  ("け", ["けむし", "けしき", "けが"]),
  ("こ", ["ことり", "こめ", "こおり"]),
  ("さ", ["さかな", "さる", "さくら"]),
  ("し", ["しろ", "しお", "しんぶん"]),
  ("す", ["すいか", "すずめ", "すな"]),
  ("せ", ["せみ", "せかい", "せんべい"]),
  ("そ", ["そら", "そば", "そり"]),
  ("た", ["たまご", "たに", "たこ"]),
  ("ち", ["ちず", "ちから", "ちくわ"]),
  ("つ", ["つき", "つばさ", "つち"]),
  ("て", ["てがみ", "てぶくろ", "てんぷら"]),
  ("と", ["とら", "とけい", "とまと"]),
  ("な", ["なす", "なべ", "なみ"]),
  ("に", ["にわ", "にく", "にじ"]),
  ("ぬ", ["ぬいぐるみ", "ぬの", "ぬま"]),
  ("ね", ["ねこ", "ねぎ", "ねずみ"]),
  ("の", ["のり", "のはら", "のこぎり"]),
  ("は", ["はさみ", "はな", "はっぱ"]),
  ("ひ", ["ひこうき", "ひつじ", "ひみつ"]),
  ("ふ", ["ふね", "ふく", "ふとん"]),
  ("へ", ["へび", "へや", "へいたい"]),
  ("ほ", ["ほし", "ほね", "ほたる"]),
  ("ま", ["まくら", "まめ", "まど"]),
  ("み", ["みず", "みかん", "みち"]),
  ("む", ["むし", "むぎ", "むね"]),
  ("め", ["めがね", "めだか", "めんたいこ"]),
  ("も", ["もも", "もり", "もち"]),
  ("や", ["やま", "やさい", "やぎ"]),
  ("ゆ", ["ゆき", "ゆめ", "ゆび"]),
  ("よ", ["ようふく", "よる", "よこ"]),
  ("ら", ["らっこ", "らっぱ", "らいおん"]),
  ("り", ["りす", "りんご", "りょうり"]),
  ("る", ["るす", "るつぼ", "るーれっと"]),
  ("れ", ["れいぞうこ", "れもん", "れんこん"]),
  ("ろ", ["ろうそく", "ろぼっと", "ろてんぶろ"]),
  ("わ", ["わに", "わごむ", "わた"])]

/-- Python `FALLBACK_DICT.get(head, [])`, with the head syllable given as
a code point. -/
def fallbackWords (head : Nat) : List PyStr :=
  match FALLBACK_DICT.find? (fun p => pystr p.1 == [head]) with
  | some p => p.2.map pystr
  | none => []

/-- `MAX_TURNS = 20`: cap on the number of player moves. -/
def MAX_TURNS : Nat := 20

/-- The request body: raw move history (oldest first) and the player's
raw candidate word. -/
structure MoveRequest where
  history : List PyStr
  user_word : PyStr
deriving DecidableEq, Repr

/-- The response body (`MoveResponse` of `app/main.py`); absent optional
fields are `none`, matching the pydantic defaults. -/
structure MoveResponse where
  ok : Bool
  message : String
  user_word : Option PyStr := none
  ai_word : Option PyStr := none
  next_head_for_user : Option Nat := none
  used : List PyStr := []
  turn_count : Nat := 0
  game_over : Bool := false
  winner : Option String := none
deriving DecidableEq, Repr

/-- Outcome of one request: a normal response, or an HTTP error raised
via `HTTPException` (only status 400 is ever raised). -/
inductive ApiResult where
  | resp (r : MoveResponse)
  | httpError (status : Nat)
deriving DecidableEq, Repr

/-- The external collaborators of the handler: `gemini k` is the word
returned by the `k`-th call to `_gemini_generate` within the request
(`none` models a swallowed failure or an unconfigured service), and
`pick` resolves the `random.choice` inside `_choose_fallback` to an
index into the candidate list. -/
structure Providers where
  gemini : Nat → Option PyStr
  pick : List PyStr → Nat

/-- Python truthiness of `Optional[str]`: `None` and the empty string
are falsy. -/
def truthyStr : Option PyStr → Bool
  | none => false
  | some w => !w.isEmpty

/-- Python `set.add` modelled on a duplicate-free list (insertion
order). -/
def setAdd (s : List PyStr) (w : PyStr) : List PyStr :=
  if w ∈ s then s else s ++ [w]

/-- Python `set(l)` modelled as a duplicate-free list. -/
def setFromList (l : List PyStr) : List PyStr := l.foldl setAdd []

/-- Python `_turn_count_from_history`: `(len(history) + 1) // 2`. -/
def _turn_count_from_history (history : List PyStr) : Nat :=
  (history.length + 1) / 2

/-- Python `_choose_fallback`: filter the table entry for `head` against
`used` and pick one candidate (the `random.choice` index supplied by
`pick`, reduced into range). -/
def _choose_fallback (pick : List PyStr → Nat) (head : Nat)
    (used : List PyStr) : Option PyStr :=
  let candidates := (fallbackWords head).filter (fun w => decide (w ∉ used))
  match candidates with
  | [] => none
  | c :: cs => some ((c :: cs).getD (pick (c :: cs) % (c :: cs).length) c)

/-- The entry normalization of `ai_move`:
`[to_hiragana(w) for w in req.history if w]`. -/
def processedHistory (raw : List PyStr) : List PyStr :=
  (raw.filter (fun w => !w.isEmpty)).map to_hiragana

/-- The expected-head computation of `ai_move`: `None` on empty history,
else `next_required_head(history[-1])`. -/
def expectedHeadOf (history : List PyStr) : Option Nat :=
  match history.getLast? with
  | none => none
  | some lastw => next_required_head lastw

/-- The generative phase of `ai_move`: one call to `_gemini_generate`,
and — only when that call returned a truthy word that fails
`validate_ai_move` — exactly one retry.  Returns the resulting candidate
together with the number of generative calls made. -/
def geminiAttempts (P : Providers) (head : Nat) (used : List PyStr) :
    Option PyStr × Nat :=
  let ai_word := P.gemini 0
  if truthyStr ai_word then
    if (validate_ai_move (ai_word.getD []) head used).1 then (ai_word, 1)
    else (P.gemini 1, 2)
  else (ai_word, 1)

/-- The candidate reaching the final validation of `ai_move`: the
generative result if truthy, else the fallback lookup. -/
def finalAiCandidate (P : Providers) (head : Nat) (used : List PyStr) :
    Option PyStr :=
  let ai_word := (geminiAttempts P head used).1
  if truthyStr ai_word then ai_word else _choose_fallback P.pick head used

/-- Continuation of `ai_move` after the player's word `w_user` has been
accepted and appended (`history1`, `used1`) and the opponent's required
head computed: generative attempts, fallback, final validation and the
closing turn-limit check.  The second component counts the calls made to
`_gemini_generate`. -/
def ai_move_phase2 (P : Providers) (w_user : PyStr) (user_turns_before : Nat)
    (history1 used1 : List PyStr) (head : Nat) : ApiResult × Nat :=
  let gcalls := (geminiAttempts P head used1).2
  let ai_word := finalAiCandidate P head used1
  if truthyStr ai_word = false then
    (.resp { ok := true,
             message := "AIはこたえられなかったよ。あなたのかち！",
             user_word := some w_user, used := used1,
             turn_count := user_turns_before + 1,
             game_over := true, winner := some "user" }, gcalls)
  else
    let aw := ai_word.getD []
    let vai := validate_ai_move aw head used1
    if vai.1 = false then
      (.resp { ok := true,
               message := "AIがルールをまもれなかったよ。あなたのかち！",
               user_word := some w_user, ai_word := some aw,
               used := used1, turn_count := user_turns_before + 1,
               game_over := true, winner := some "user" }, gcalls)
    else
      let history2 := history1 ++ [aw]
      let used2 := setAdd used1 aw
      let next_head := next_required_head aw
      let user_turns_after := _turn_count_from_history history2
      let game_over := decide (user_turns_after ≥ MAX_TURNS)
      (.resp { ok := true,
               message :=
                 if game_over then "きょうはここまで！またあしたあそぼうね"
                 else "つぎは『" ++
                   (match next_head with
                    | none => "None"
                    | some n => String.singleton (Char.ofNat n)) ++
                   "』からはじめてね",
               user_word := some w_user, ai_word := some aw,
               next_head_for_user := next_head, used := used2,
               turn_count := user_turns_after, game_over := game_over,
               winner := if game_over then some "none" else none },
       gcalls)

/-- Python `ai_move` (the `/api/ai_move` handler), parameterized by the
external providers.  The second component counts the calls made to
`_gemini_generate` during the request. -/
def ai_move (P : Providers) (req : MoveRequest) : ApiResult × Nat :=
  let history := processedHistory req.history
  let used := setFromList history
  let user_turns_before := _turn_count_from_history history
  if user_turns_before ≥ MAX_TURNS then
    (.resp { ok := false,
             message := "20かいまでだよ。さいしょからやりなおしてね",
             used := used, turn_count := user_turns_before,
             game_over := true, winner := some "none" }, 0)
  else
    let expected_head := expectedHeadOf history
    let v := validate_user_move req.user_word expected_head used
    let w_user := to_hiragana req.user_word
    if v.1 = false then
      (.resp { ok := false, message := v.2, user_word := some w_user,
               used := used, turn_count := user_turns_before + 1,
               game_over := true, winner := some "ai" }, 0)
    else
      let history1 := history ++ [w_user]
      let used1 := setAdd used w_user
      match next_required_head w_user with
      | none => (.httpError 400, 0)
      | some head =>
        ai_move_phase2 P w_user user_turns_before history1 used1 head

/-! ## Helper lemmas -/

theorem mem_of_mem_dropWhile {p : Nat → Bool} {c : Nat} :
    ∀ {l : PyStr}, c ∈ l.dropWhile p → c ∈ l := by
  intro l
  induction l with
  | nil => intro h; simp at h
  | cons a t ih =>
    intro h
    rw [List.dropWhile_cons] at h
    by_cases hp : p a = true
    · rw [if_pos hp] at h
      exact List.mem_cons_of_mem a (ih h)
    · rw [if_neg hp] at h
      exact h

theorem mem_of_mem_pyStrip {c : Nat} {s : PyStr} (h : c ∈ pyStrip s) : c ∈ s := by
  unfold pyStrip at h
  rw [List.mem_reverse] at h
  have h2 := mem_of_mem_dropWhile h
  rw [List.mem_reverse] at h2
  exact mem_of_mem_dropWhile h2

theorem to_hiragana_core_mem (s : PyStr) :
    ∀ c ∈ to_hiragana_core s, (0x3041 ≤ c ∧ c ≤ 0x309A) ∨ c = 0x30FC := by
  induction s with
  | nil => intro c hc; simp [to_hiragana_core] at hc
  | cons a t ih =>
    intro c hc
    simp only [to_hiragana_core] at hc
    by_cases h1 : isPySpace a = true
    · rw [if_pos h1] at hc; exact ih c hc
    · rw [if_neg h1] at hc
      by_cases h2 : isCanonChar a = true
      · rw [if_pos h2] at hc
        rcases List.mem_cons.mp hc with rfl | hmem
        · simp only [isCanonChar, Bool.or_eq_true, Bool.and_eq_true,
            decide_eq_true_eq, beq_iff_eq] at h2
          rcases h2 with ⟨ha, hb⟩ | rfl
          · left; omega
          · right; rfl
        · exact ih c hmem
      · rw [if_neg h2] at hc
        by_cases h3 : (isKatakanaChar a || a == 0x30FC) = true
        · rw [if_pos h3] at hc
          rcases List.mem_cons.mp hc with rfl | hmem
          · have ha : (a == 0x30FC) = false := by
              rcases hb : a == 0x30FC with _ | _
              · rfl
              · exfalso; apply h2
                simp only [isCanonChar, Bool.or_eq_true]
                right; exact hb
            rw [if_neg (by simp [ha])]
            rw [ha, Bool.or_false] at h3
            simp only [isKatakanaChar, Bool.and_eq_true, decide_eq_true_eq] at h3
            simp only [_KATAKANA_TO_HIRAGANA_OFFSET]
            left; omega
          · exact ih c hmem
        · rw [if_neg h3] at hc; exact ih c hc

theorem to_hiragana_mem {c : Nat} {s : PyStr} (h : c ∈ to_hiragana s) :
    (0x3041 ≤ c ∧ c ≤ 0x309A) ∨ c = 0x30FC := by
  exact to_hiragana_core_mem (pyStrip s) c h

theorem to_hiragana_getLast?_ne_newline (s : PyStr) :
    (to_hiragana s).getLast? ≠ some 0x0A := by
  intro h
  have hmem : (0x0A : Nat) ∈ to_hiragana s := by
    rcases List.getLast?_eq_some_iff.mp h with ⟨l, hl⟩
    rw [hl]; simp
  rcases to_hiragana_mem hmem with ⟨h1, _⟩ | h1 <;> omega

theorem is_hiragana_only_to_hiragana (s : PyStr) :
    is_hiragana_only (to_hiragana s) =
      (!(to_hiragana s).isEmpty && (to_hiragana s).all isCanonChar) := by
  unfold is_hiragana_only
  have h := to_hiragana_getLast?_ne_newline s
  have h2 : ((to_hiragana s).getLast? == some 0x0A) = false := by
    simp only [beq_eq_false_iff_ne, ne_eq]
    exact h
  rw [h2]
  simp

theorem isCanonChar_not_space {c : Nat} (h : isCanonChar c = true) :
    isPySpace c = false := by
  rcases hsp : isPySpace c with _ | _
  · rfl
  · exfalso
    simp only [isCanonChar, Bool.or_eq_true, Bool.and_eq_true,
      decide_eq_true_eq, beq_iff_eq] at h
    simp only [isPySpace, Bool.or_eq_true, Bool.and_eq_true,
      decide_eq_true_eq, beq_iff_eq] at hsp
    rcases h with ⟨h1, h2⟩ | rfl <;> omega

theorem dropWhile_eq_self_of_all {p : Nat → Bool} {l : PyStr}
    (h : ∀ c ∈ l, p c = false) : l.dropWhile p = l := by
  cases l with
  | nil => rfl
  | cons a t =>
    rw [List.dropWhile_cons, if_neg (by simp [h a (List.mem_cons_self a t)])]

theorem pyStrip_eq_self {s : PyStr} (h : ∀ c ∈ s, isCanonChar c = true) :
    pyStrip s = s := by
  unfold pyStrip
  have h1 : ∀ c ∈ s, isPySpace c = false :=
    fun c hc => isCanonChar_not_space (h c hc)
  rw [dropWhile_eq_self_of_all h1,
    dropWhile_eq_self_of_all (fun c hc => h1 c (List.mem_reverse.mp hc)),
    List.reverse_reverse]

theorem to_hiragana_core_fixed : ∀ {s : PyStr},
    (∀ c ∈ s, isCanonChar c = true) → to_hiragana_core s = s := by
  intro s
  induction s with
  | nil => intro _; rfl
  | cons a t ih =>
    intro h
    have ha := h a (List.mem_cons_self a t)
    simp only [to_hiragana_core]
    rw [if_neg (by simp [isCanonChar_not_space ha]), if_pos ha,
      ih (fun c hc => h c (List.mem_cons_of_mem a hc))]

theorem to_hiragana_fixed {s : PyStr} (h : ∀ c ∈ s, isCanonChar c = true) :
    to_hiragana s = s := by
  unfold to_hiragana
  rw [pyStrip_eq_self h, to_hiragana_core_fixed h]

theorem smallToLargeGet_eq_n_iff (l : Nat) :
    smallToLargeGet l = 0x3093 ↔ l = 0x3093 := by
  constructor
  · intro h
    by_contra hne
    unfold smallToLargeGet at h
    rcases hl : _SMALL_TO_LARGE.lookup l with _ | m
    · rw [hl] at h; exact hne h
    · rw [hl] at h
      subst h
      simp only [_SMALL_TO_LARGE, List.lookup] at hl
      repeat' split at hl <;> simp_all
  · intro h; subst h; decide

theorem violates_end_n_iff (s : PyStr) :
    violates_end_n s = true ↔ normalize_last_char s = some 0x3093 := by
  unfold violates_end_n normalize_last_char
  cases s with
  | nil => simp [strip_trailing_prolong_mark]
  | cons a t =>
    rw [if_neg (by simp)]
    rcases hl : (strip_trailing_prolong_mark (a :: t)).getLast? with _ | last
    · simp
    · simp [smallToLargeGet_eq_n_iff]

theorem violates_end_n_eq_beq (s : PyStr) :
    violates_end_n s = (normalize_last_char s == some 0x3093) := by
  rcases h : violates_end_n s with _ | _
  · symm
    rw [beq_eq_false_iff_ne]
    intro hc
    rw [← violates_end_n_iff] at hc
    rw [h] at hc
    exact Bool.noConfusion hc
  · symm
    rw [beq_iff_eq]
    exact (violates_end_n_iff s).mp h

/-! ## Spec-side comparison definitions (refinement claims) -/

/-- Comparison definition for claim C1, following the spec's wording of
`validateChallenger` composed with Step 3's normalization: checks in
order (1) non-empty after normalization, (2) script-pure (every
character canonical syllabary or prolongation mark), (3) not already in
`used`, (4) effective tail syllable not the taboo syllable ん, (5) when
`requiredHead` is given, first syllable mapped small→large equals
`requiredHead`; first failure wins. -/
def validateChallengerSpec (candidate : PyStr) (requiredHead : Option Nat)
    (used : List PyStr) : Bool × String :=
  let w := to_hiragana candidate
  if w.isEmpty then (false, "ことばを入力してね")
  else if !w.all isCanonChar then (false, "ひらがなだけで入力してね")
  else if w ∈ used then (false, "同じことばは使えないよ")
  else if normalize_last_char w == some 0x3093 then
    (false, "『ん』で終わったのでまけだよ")
  else
    match requiredHead with
    | some eh =>
      if smallToLargeGet (w.headD 0) = eh then (true, "OK")
      else (false, "『" ++ String.singleton (Char.ofNat eh) ++ "』からはじめてね")
    | none => (true, "OK")

/-- Comparison definition for claim C7, following the claim's stated
order for the opponent validation: script purity, then non-repetition,
then taboo tail, then head match. -/
def validateOpponentSpecOrder (ai_word : PyStr) (required_head : Nat)
    (used : List PyStr) : Bool × String :=
  let w := to_hiragana ai_word
  if (w.isEmpty || !w.all isCanonChar) then
    (false, "AIのことばがひらがなじゃないよ")
  else if w ∈ used then (false, "AIが同じことばを使ったよ")
  else if normalize_last_char w == some 0x3093 then
    (false, "AIが『ん』で終わったよ")
  else if smallToLargeGet (w.headD 0) ≠ required_head then
    (false, "AIの先頭文字が合っていないよ")
  else (true, "OK")

/-- Comparison definition for the amended claim C7: same checks, but in
the order the code applies them — script purity, then head match, then
non-repetition, then taboo tail. -/
def validateOpponentAmendedOrder (ai_word : PyStr) (required_head : Nat)
    (used : List PyStr) : Bool × String :=
  let w := to_hiragana ai_word
  if (w.isEmpty || !w.all isCanonChar) then
    (false, "AIのことばがひらがなじゃないよ")
  else if smallToLargeGet (w.headD 0) ≠ required_head then
    (false, "AIの先頭文字が合っていないよ")
  else if w ∈ used then (false, "AIが同じことばを使ったよ")
  else if normalize_last_char w == some 0x3093 then
    (false, "AIが『ん』で終わったよ")
  else (true, "OK")

theorem validate_user_eq_spec (w : PyStr) (eh : Option Nat) (used : List PyStr) :
    validate_user_move w eh used = validateChallengerSpec w eh used := by
  unfold validate_user_move validateChallengerSpec
  by_cases h1 : (to_hiragana w).isEmpty = true
  · rw [if_pos h1, if_pos h1]
  · have h1f : (to_hiragana w).isEmpty = false := Bool.eq_false_iff.mpr h1
    rw [if_neg h1, if_neg h1]
    have hhira : is_hiragana_only (to_hiragana w) =
        (to_hiragana w).all isCanonChar := by
      rw [is_hiragana_only_to_hiragana, h1f]
      simp
    by_cases h2 : (to_hiragana w).all isCanonChar = true
    · have hcode2 : ¬(is_hiragana_only (to_hiragana w) = false) := by
        rw [hhira, h2]; exact Bool.noConfusion
      have hspec2 : ¬((!(to_hiragana w).all isCanonChar) = true) := by
        rw [h2]; simp
      rw [if_neg hcode2, if_neg hspec2]
      by_cases h3 : to_hiragana w ∈ used
      · rw [if_pos h3, if_pos h3]
      · rw [if_neg h3, if_neg h3, violates_end_n_eq_beq]
        by_cases h4 : (normalize_last_char (to_hiragana w) == some 0x3093) = true
        · rw [if_pos h4, if_pos h4]
        · rw [if_neg h4, if_neg h4]
          cases eh with
          | none => rfl
          | some e =>
            show (if smallToLargeGet ((to_hiragana w).headD 0) ≠ e then
                (false, "『" ++ String.singleton (Char.ofNat e) ++ "』からはじめてね")
              else (true, "OK")) =
              (if smallToLargeGet ((to_hiragana w).headD 0) = e then (true, "OK")
              else (false, "『" ++ String.singleton (Char.ofNat e) ++ "』からはじめてね"))
            by_cases h5 : smallToLargeGet ((to_hiragana w).headD 0) = e
            · rw [if_neg (fun hc => hc h5), if_pos h5]
            · rw [if_pos h5, if_neg h5]
    · have h2f : (to_hiragana w).all isCanonChar = false := Bool.eq_false_iff.mpr h2
      have hcode2 : is_hiragana_only (to_hiragana w) = false := by
        rw [hhira, h2f]
      have hspec2 : (!(to_hiragana w).all isCanonChar) = true := by
        rw [h2f]; rfl
      rw [if_pos hcode2, if_pos hspec2]

theorem validate_ai_eq_amended (w : PyStr) (h : Nat) (used : List PyStr) :
    validate_ai_move w h used = validateOpponentAmendedOrder w h used := by
  have hc : ((to_hiragana w).isEmpty || !is_hiragana_only (to_hiragana w)) =
      ((to_hiragana w).isEmpty || !(to_hiragana w).all isCanonChar) := by
    rw [is_hiragana_only_to_hiragana]
    cases (to_hiragana w).isEmpty <;> simp
  simp only [validate_ai_move, validateOpponentAmendedOrder, hc,
    violates_end_n_eq_beq]

/-! ## Claim theorems -/

/-- C2: the claim states that every character of `to_hiragana`'s output
is canonical syllabary or the prolongation mark.  The code violates it:
the katakana range check extends to ヺ (U+30FA) while the fixed offset
lands inside the canonical range only up to ヶ (U+30F6), so ヷ (U+30F7)
is mapped to U+3097, which is neither a canonical-syllabary character
nor the prolongation mark — contradicting the function's own docstring
(output is hiragana only). -/
theorem C2_normalizer_escapes_canonical_range :
    to_hiragana (pystr "ヷ") = [0x3097] ∧ isCanonChar 0x3097 = false := by
  decide

/-- C3: the claim states `to_hiragana` is idempotent.  On ヷ (U+30F7)
the first application produces U+3097 (outside every kept range), and
the second application drops it, so the results differ. -/
theorem C3_normalizer_not_idempotent :
    to_hiragana (to_hiragana (pystr "ヷ")) = [] ∧
    to_hiragana (pystr "ヷ") = [0x3097] := by
  decide

/-- C4: `normalize_last_char` returns `none` on the empty word; on a
word ending with the prolongation mark it drops exactly one trailing
mark and uses the character preceding it (mapped small→large); and on a
word not ending with the mark it returns the small→large image of the
last character. -/
theorem C4_effective_tail_behaviour :
    normalize_last_char [] = none ∧
    (∀ s : PyStr, normalize_last_char (s ++ [0x30FC]) =
       (match s.getLast? with
        | none => none
        | some l => some (smallToLargeGet l))) ∧
    (∀ (s : PyStr) (l : Nat), s.getLast? = some l → l ≠ 0x30FC →
       normalize_last_char s = some (smallToLargeGet l)) := by
  refine ⟨rfl, ?_, ?_⟩
  · intro s
    unfold normalize_last_char strip_trailing_prolong_mark
    rw [if_neg (by simp), if_pos (by rw [List.getLast?_concat]; rfl),
      List.dropLast_concat]
  · intro s l hl hne
    have hs : s ≠ [] := by intro h; subst h; simp at hl
    unfold normalize_last_char strip_trailing_prolong_mark
    rw [if_neg (by simp [hs]), if_neg (by rw [hl]; simp [hne]), hl]

/-- Witness for C4: applies the theorem at きゃ (tail ゃ, mapped to や)
and at とー (one mark dropped, tail と). -/
theorem C4_effective_tail_behaviour_witness :
    normalize_last_char (pystr "きゃ") = some (smallToLargeGet 0x3083) ∧
    normalize_last_char (pystr "とー") =
      (match (pystr "と").getLast? with
       | none => none
       | some l => some (smallToLargeGet l)) :=
  ⟨C4_effective_tail_behaviour.2.2 (pystr "きゃ") 0x3083 (by decide) (by decide),
   C4_effective_tail_behaviour.2.1 (pystr "と")⟩

/-- C7 counterexample: the claim says the opponent validation applies
the checks in the order purity, repetition, taboo tail, head match.  At
word かめ with required head さ and かめ already used, the code reports
the head-mismatch failure while the claimed order would report the
repeated-word failure. -/
theorem C7_counterexample_order :
    validate_ai_move (pystr "かめ") 0x3055 [pystr "かめ"] ≠
      validateOpponentSpecOrder (pystr "かめ") 0x3055 [pystr "かめ"] := by
  decide

/-- C7 (amended): `validate_ai_move` applies the same checks with the
required head always supplied, but in the order script purity, head
match, non-repetition, taboo tail; the first failure determines the
message. -/
theorem C7_opponent_validation_order :
    ∀ (w : PyStr) (h : Nat) (used : List PyStr),
      validate_ai_move w h used = validateOpponentAmendedOrder w h used :=
  validate_ai_eq_amended

/-- C8 counterexample: the claim says every word in `used` fails
validation with the repeated-word failure.  The katakana word ネコ as
its own `used` entry normalizes to ねこ, which is not in `used`, and the
move is accepted. -/
theorem C8_counterexample_used_word_accepted :
    validate_user_move (pystr "ネコ") none [pystr "ネコ"] = (true, "OK") := by
  decide

/-- C8 (amended): every non-empty, script-pure word `w` in `used` fails
player validation with the repeated-word failure, for any required
head. -/
theorem C8_repeated_word_rejected (w : PyStr) (anyHead : Option Nat)
    (used : List PyStr) (hmem : w ∈ used) (hne : ¬w.isEmpty)
    (hpure : ∀ c ∈ w, isCanonChar c = true) :
    validate_user_move w anyHead used = (false, "同じことばは使えないよ") := by
  unfold validate_user_move
  rw [to_hiragana_fixed hpure]
  have hhira : is_hiragana_only w = true := by
    unfold is_hiragana_only
    rw [List.all_eq_true.mpr hpure]
    rcases h : w.isEmpty with _ | _
    · simp
    · exact absurd h hne
  rw [if_neg (by simp [hne]), if_neg (by rw [hhira]; exact Bool.noConfusion),
    if_pos hmem]

/-- Witness for C8 (amended): applies the theorem at とら already in
`used`. -/
theorem C8_repeated_word_rejected_witness :
    validate_user_move (pystr "とら") (some 0x3055) [pystr "とら"] =
      (false, "同じことばは使えないよ") :=
  C8_repeated_word_rejected (pystr "とら") (some 0x3055) [pystr "とら"]
    (by decide) (by decide) (by decide)

/-! ## Branch lemmas for the request handler -/

theorem ai_move_limit (P : Providers) (req : MoveRequest)
    (h : _turn_count_from_history (processedHistory req.history) ≥ MAX_TURNS) :
    ai_move P req =
      (.resp { ok := false,
               message := "20かいまでだよ。さいしょからやりなおしてね",
               used := setFromList (processedHistory req.history),
               turn_count := _turn_count_from_history (processedHistory req.history),
               game_over := true, winner := some "none" }, 0) := by
  unfold ai_move
  rw [if_pos h]

theorem ai_move_invalid_user (P : Providers) (req : MoveRequest)
    (hlt : _turn_count_from_history (processedHistory req.history) < MAX_TURNS)
    (hval : (validate_user_move req.user_word
        (expectedHeadOf (processedHistory req.history))
        (setFromList (processedHistory req.history))).1 = false) :
    ai_move P req =
      (.resp { ok := false,
               message := (validate_user_move req.user_word
                 (expectedHeadOf (processedHistory req.history))
                 (setFromList (processedHistory req.history))).2,
               user_word := some (to_hiragana req.user_word),
               used := setFromList (processedHistory req.history),
               turn_count := _turn_count_from_history (processedHistory req.history) + 1,
               game_over := true, winner := some "ai" }, 0) := by
  unfold ai_move
  rw [if_neg (Nat.not_le.mpr hlt), if_pos hval]

theorem ai_move_tail_none (P : Providers) (req : MoveRequest)
    (hlt : _turn_count_from_history (processedHistory req.history) < MAX_TURNS)
    (hval : (validate_user_move req.user_word
        (expectedHeadOf (processedHistory req.history))
        (setFromList (processedHistory req.history))).1 = true)
    (hhead : next_required_head (to_hiragana req.user_word) = none) :
    ai_move P req = (.httpError 400, 0) := by
  unfold ai_move
  rw [if_neg (Nat.not_le.mpr hlt),
    if_neg (fun hc => by rw [hval] at hc; exact Bool.noConfusion hc), hhead]

theorem ai_move_valid_head (P : Providers) (req : MoveRequest) (head : Nat)
    (hlt : _turn_count_from_history (processedHistory req.history) < MAX_TURNS)
    (hval : (validate_user_move req.user_word
        (expectedHeadOf (processedHistory req.history))
        (setFromList (processedHistory req.history))).1 = true)
    (hhead : next_required_head (to_hiragana req.user_word) = some head) :
    ai_move P req =
      ai_move_phase2 P (to_hiragana req.user_word)
        (_turn_count_from_history (processedHistory req.history))
        (processedHistory req.history ++ [to_hiragana req.user_word])
        (setAdd (setFromList (processedHistory req.history))
          (to_hiragana req.user_word)) head := by
  unfold ai_move
  rw [if_neg (Nat.not_le.mpr hlt),
    if_neg (fun hc => by rw [hval] at hc; exact Bool.noConfusion hc), hhead]

theorem geminiAttempts_calls_le_two (P : Providers) (head : Nat)
    (used : List PyStr) : (geminiAttempts P head used).2 ≤ 2 := by
  simp only [geminiAttempts]
  split
  · split
    · exact Nat.le_succ 1
    · exact Nat.le_refl 2
  · exact Nat.le_succ 1

theorem ai_move_phase2_calls_le_two (P : Providers) (w : PyStr) (utb : Nat)
    (h1 u1 : List PyStr) (head : Nat) :
    (ai_move_phase2 P w utb h1 u1 head).2 ≤ 2 := by
  simp only [ai_move_phase2]
  split
  · exact geminiAttempts_calls_le_two P head u1
  · split
    · exact geminiAttempts_calls_le_two P head u1
    · exact geminiAttempts_calls_le_two P head u1

theorem ai_move_calls_le_two (P : Providers) (req : MoveRequest) :
    (ai_move P req).2 ≤ 2 := by
  simp only [ai_move]
  split
  · exact Nat.zero_le 2
  · split
    · exact Nat.zero_le 2
    · split
      · exact Nat.zero_le 2
      · apply ai_move_phase2_calls_le_two

theorem ai_move_phase2_is_resp (P : Providers) (w : PyStr) (utb : Nat)
    (h1 u1 : List PyStr) (head : Nat) :
    ∃ r, (ai_move_phase2 P w utb h1 u1 head).1 = .resp r := by
  simp only [ai_move_phase2]
  split
  · exact ⟨_, rfl⟩
  · split
    · exact ⟨_, rfl⟩
    · exact ⟨_, rfl⟩

theorem ai_move_phase2_no_candidate (P : Providers) (w : PyStr) (utb : Nat)
    (h1 u1 : List PyStr) (head : Nat)
    (h : truthyStr (finalAiCandidate P head u1) = false) :
    ai_move_phase2 P w utb h1 u1 head =
      (.resp { ok := true,
               message := "AIはこたえられなかったよ。あなたのかち！",
               user_word := some w, used := u1, turn_count := utb + 1,
               game_over := true, winner := some "user" },
       (geminiAttempts P head u1).2) := by
  unfold ai_move_phase2
  rw [if_pos h]

theorem ai_move_phase2_invalid_candidate (P : Providers) (w : PyStr)
    (utb : Nat) (h1 u1 : List PyStr) (head : Nat)
    (ht : truthyStr (finalAiCandidate P head u1) = true)
    (hv : (validate_ai_move ((finalAiCandidate P head u1).getD [])
        head u1).1 = false) :
    ai_move_phase2 P w utb h1 u1 head =
      (.resp { ok := true,
               message := "AIがルールをまもれなかったよ。あなたのかち！",
               user_word := some w,
               ai_word := some ((finalAiCandidate P head u1).getD []),
               used := u1, turn_count := utb + 1,
               game_over := true, winner := some "user" },
       (geminiAttempts P head u1).2) := by
  unfold ai_move_phase2
  rw [if_neg (fun hc => by rw [ht] at hc; exact Bool.noConfusion hc), if_pos hv]

theorem ai_move_phase2_accept (P : Providers) (w : PyStr) (utb : Nat)
    (h1 u1 : List PyStr) (head : Nat)
    (ht : truthyStr (finalAiCandidate P head u1) = true)
    (hv : (validate_ai_move ((finalAiCandidate P head u1).getD [])
        head u1).1 = true) :
    ai_move_phase2 P w utb h1 u1 head =
      (.resp { ok := true,
               message :=
                 if decide (_turn_count_from_history
                     (h1 ++ [(finalAiCandidate P head u1).getD []]) ≥
                       MAX_TURNS) = true then
                   "きょうはここまで！またあしたあそぼうね"
                 else "つぎは『" ++
                   (match next_required_head
                       ((finalAiCandidate P head u1).getD []) with
                    | none => "None"
                    | some n => String.singleton (Char.ofNat n)) ++
                   "』からはじめてね",
               user_word := some w,
               ai_word := some ((finalAiCandidate P head u1).getD []),
               next_head_for_user :=
                 next_required_head ((finalAiCandidate P head u1).getD []),
               used := setAdd u1 ((finalAiCandidate P head u1).getD []),
               turn_count := _turn_count_from_history
                 (h1 ++ [(finalAiCandidate P head u1).getD []]),
               game_over := decide (_turn_count_from_history
                 (h1 ++ [(finalAiCandidate P head u1).getD []]) ≥ MAX_TURNS),
               winner :=
                 if decide (_turn_count_from_history
                     (h1 ++ [(finalAiCandidate P head u1).getD []]) ≥
                       MAX_TURNS) = true then
                   some "none"
                 else none },
       (geminiAttempts P head u1).2) := by
  unfold ai_move_phase2
  rw [if_neg (fun hc => by rw [ht] at hc; exact Bool.noConfusion hc),
    if_neg (fun hc => by rw [hv] at hc; exact Bool.noConfusion hc)]

theorem mem_foldl_setAdd (a : PyStr) :
    ∀ (l acc : List PyStr), a ∈ l.foldl setAdd acc ↔ a ∈ acc ∨ a ∈ l := by
  intro l
  induction l with
  | nil => intro acc; simp
  | cons b t ih =>
    intro acc
    rw [List.foldl_cons, ih]
    unfold setAdd
    by_cases hb : b ∈ acc
    · rw [if_pos hb]
      constructor
      · rintro (h | h)
        · exact Or.inl h
        · exact Or.inr (List.mem_cons_of_mem b h)
      · rintro (h | h)
        · exact Or.inl h
        · rcases List.mem_cons.mp h with rfl | h2
          · exact Or.inl hb
          · exact Or.inr h2
    · rw [if_neg hb]
      constructor
      · rintro (h | h)
        · rcases List.mem_append.mp h with h2 | h2
          · exact Or.inl h2
          · simp only [List.mem_singleton] at h2
            rw [h2]
            exact Or.inr (List.mem_cons_self b t)
        · exact Or.inr (List.mem_cons_of_mem b h)
      · rintro (h | h)
        · exact Or.inl (List.mem_append.mpr (Or.inl h))
        · rcases List.mem_cons.mp h with rfl | h2
          · exact Or.inl (List.mem_append.mpr (Or.inr (List.mem_singleton.mpr rfl)))
          · exact Or.inr h2

theorem mem_setFromList {a : PyStr} {l : List PyStr} :
    a ∈ setFromList l ↔ a ∈ l := by
  unfold setFromList
  rw [mem_foldl_setAdd]
  simp

/-- C1: the player validation applies its five checks in the spec's
stated order with the first failure determining the message (refinement
against `validateChallengerSpec`, written from the spec's wording), and
whenever the validation fails on a request that has not hit the round
limit, the handler answers with `ok = false`, `game_over = true`, winner
`ai` (the opponent) and turn count `turnsBefore + 1`. -/
theorem C1_player_validation_order_and_loss :
    (∀ (w : PyStr) (eh : Option Nat) (used : List PyStr),
      validate_user_move w eh used = validateChallengerSpec w eh used) ∧
    (∀ (P : Providers) (req : MoveRequest),
      _turn_count_from_history (processedHistory req.history) < MAX_TURNS →
      (validate_user_move req.user_word
        (expectedHeadOf (processedHistory req.history))
        (setFromList (processedHistory req.history))).1 = false →
      ai_move P req =
        (.resp { ok := false,
                 message := (validate_user_move req.user_word
                   (expectedHeadOf (processedHistory req.history))
                   (setFromList (processedHistory req.history))).2,
                 user_word := some (to_hiragana req.user_word),
                 used := setFromList (processedHistory req.history),
                 turn_count :=
                   _turn_count_from_history (processedHistory req.history) + 1,
                 game_over := true, winner := some "ai" }, 0)) :=
  ⟨validate_user_eq_spec, fun P req hlt hval => ai_move_invalid_user P req hlt hval⟩

/-- Witness for C1: the candidate めろん (ends in ん) on an empty
history is rejected and the handler declares the opponent winner with
turn count 1. -/
theorem C1_player_validation_order_and_loss_witness :
    ai_move ⟨fun _ => none, fun _ => 0⟩ ⟨[], pystr "めろん"⟩ =
      (.resp { ok := false,
               message := (validate_user_move (pystr "めろん")
                 (expectedHeadOf (processedHistory ([] : List PyStr)))
                 (setFromList (processedHistory ([] : List PyStr)))).2,
               user_word := some (to_hiragana (pystr "めろん")),
               used := setFromList (processedHistory ([] : List PyStr)),
               turn_count :=
                 _turn_count_from_history (processedHistory ([] : List PyStr)) + 1,
               game_over := true, winner := some "ai" }, 0) :=
  C1_player_validation_order_and_loss.2 ⟨fun _ => none, fun _ => 0⟩
    ⟨[], pystr "めろん"⟩ (by decide) (by decide)

/-- C9: when the candidate passes the player validation but its
effective tail is `none` (for example the bare prolongation mark), the
handler raises HTTP 400 instead of returning a game outcome. -/
theorem C9_no_tail_is_client_error :
    ∀ (P : Providers) (req : MoveRequest),
      _turn_count_from_history (processedHistory req.history) < MAX_TURNS →
      (validate_user_move req.user_word
        (expectedHeadOf (processedHistory req.history))
        (setFromList (processedHistory req.history))).1 = true →
      next_required_head (to_hiragana req.user_word) = none →
      ai_move P req = (.httpError 400, 0) :=
  fun P req hlt hval hhead => ai_move_tail_none P req hlt hval hhead

/-- Witness for C9: the candidate ー on an empty history passes
validation, has no effective tail, and yields HTTP 400. -/
theorem C9_no_tail_is_client_error_witness :
    ai_move ⟨fun _ => none, fun _ => 0⟩ ⟨[], pystr "ー"⟩ =
      (.httpError 400, 0) :=
  C9_no_tail_is_client_error ⟨fun _ => none, fun _ => 0⟩ ⟨[], pystr "ー"⟩
    (by decide) (by decide) (by decide)

/-- C6: the primary generative source is called at most twice per
request; and when the player's move is valid (with a required head for
the opponent computed), the handler never raises — it returns a
response — and whenever the candidate that reaches the final validation
is absent or invalid, the response has `ok = true`, `game_over = true`
and winner `user` (the player). -/
theorem C6_opponent_failure_player_wins :
    (∀ (P : Providers) (req : MoveRequest), (ai_move P req).2 ≤ 2) ∧
    (∀ (P : Providers) (req : MoveRequest) (head : Nat),
      _turn_count_from_history (processedHistory req.history) < MAX_TURNS →
      (validate_user_move req.user_word
        (expectedHeadOf (processedHistory req.history))
        (setFromList (processedHistory req.history))).1 = true →
      next_required_head (to_hiragana req.user_word) = some head →
      (∃ r, (ai_move P req).1 = .resp r) ∧
      ((truthyStr (finalAiCandidate P head
          (setAdd (setFromList (processedHistory req.history))
            (to_hiragana req.user_word))) = false ∨
        (validate_ai_move ((finalAiCandidate P head
            (setAdd (setFromList (processedHistory req.history))
              (to_hiragana req.user_word))).getD []) head
          (setAdd (setFromList (processedHistory req.history))
            (to_hiragana req.user_word))).1 = false) →
        ∃ r, (ai_move P req).1 = .resp r ∧ r.ok = true ∧
          r.game_over = true ∧ r.winner = some "user")) := by
  constructor
  · exact ai_move_calls_le_two
  · intro P req head hlt hval hhead
    rw [ai_move_valid_head P req head hlt hval hhead]
    constructor
    · exact ai_move_phase2_is_resp P (to_hiragana req.user_word)
        (_turn_count_from_history (processedHistory req.history))
        (processedHistory req.history ++ [to_hiragana req.user_word])
        (setAdd (setFromList (processedHistory req.history))
          (to_hiragana req.user_word)) head
    · intro hfail
      by_cases ht : truthyStr (finalAiCandidate P head
          (setAdd (setFromList (processedHistory req.history))
            (to_hiragana req.user_word))) = false
      · rw [ai_move_phase2_no_candidate P (to_hiragana req.user_word)
          (_turn_count_from_history (processedHistory req.history))
          (processedHistory req.history ++ [to_hiragana req.user_word])
          (setAdd (setFromList (processedHistory req.history))
            (to_hiragana req.user_word)) head ht]
        exact ⟨_, rfl, rfl, rfl, rfl⟩
      · have ht' : truthyStr (finalAiCandidate P head
            (setAdd (setFromList (processedHistory req.history))
              (to_hiragana req.user_word))) = true := by
          rcases hx : truthyStr (finalAiCandidate P head
            (setAdd (setFromList (processedHistory req.history))
              (to_hiragana req.user_word))) with _ | _
          · exact absurd hx ht
          · rfl
        rcases hfail with hf | hf
        · exact absurd hf ht
        · rw [ai_move_phase2_invalid_candidate P (to_hiragana req.user_word)
            (_turn_count_from_history (processedHistory req.history))
            (processedHistory req.history ++ [to_hiragana req.user_word])
            (setAdd (setFromList (processedHistory req.history))
              (to_hiragana req.user_word)) head ht' hf]
          exact ⟨_, rfl, rfl, rfl, rfl⟩

/-- Witness for C6: with とら played and the generative source answering
らいおん (ends in ん) on both calls, the retried candidate also fails
validation and the player wins with an accepted move. -/
theorem C6_opponent_failure_player_wins_witness :
    ∃ r, (ai_move ⟨fun _ => some (pystr "らいおん"), fun _ => 0⟩
        ⟨[], pystr "とら"⟩).1 = .resp r ∧ r.ok = true ∧
      r.game_over = true ∧ r.winner = some "user" :=
  (C6_opponent_failure_player_wins.2
    ⟨fun _ => some (pystr "らいおん"), fun _ => 0⟩ ⟨[], pystr "とら"⟩ 0x3089
    (by decide) (by decide) (by decide)).2 (Or.inr (by decide))

/-- C5: the player turn count before a move is `(len(history)+1)//2`
(checked at the lengths named by the spec); at `turnsBefore ≥ 20` the
handler resolves immediately with winner `none` and turn count
`turnsBefore`, identically for every candidate word (the candidate is
neither validated nor consumed); and any accepted completed exchange
whose turn count reaches 20 has `game_over = true` and winner `none`. -/
theorem C5_turn_count_and_round_limit :
    (_turn_count_from_history ([] : List PyStr) = 0 ∧
     _turn_count_from_history (List.replicate 1 ([] : PyStr)) = 1 ∧
     _turn_count_from_history (List.replicate 2 ([] : PyStr)) = 1 ∧
     _turn_count_from_history (List.replicate 3 ([] : PyStr)) = 2 ∧
     _turn_count_from_history (List.replicate 19 ([] : PyStr)) = 10) ∧
    (∀ (P : Providers) (req : MoveRequest),
      MAX_TURNS ≤ _turn_count_from_history (processedHistory req.history) →
      ai_move P req =
        (.resp { ok := false,
                 message := "20かいまでだよ。さいしょからやりなおしてね",
                 used := setFromList (processedHistory req.history),
                 turn_count :=
                   _turn_count_from_history (processedHistory req.history),
                 game_over := true, winner := some "none" }, 0) ∧
      (∀ w2 : PyStr, ai_move P { req with user_word := w2 } = ai_move P req)) ∧
    (∀ (P : Providers) (req : MoveRequest) (r : MoveResponse) (n : Nat),
      ai_move P req = (.resp r, n) → r.ok = true → r.winner ≠ some "user" →
      MAX_TURNS ≤ r.turn_count → r.game_over = true ∧ r.winner = some "none") := by
  refine ⟨by decide, ?_, ?_⟩
  · intro P req h
    refine ⟨ai_move_limit P req h, ?_⟩
    intro w2
    rw [ai_move_limit P { req with user_word := w2 } h, ai_move_limit P req h]
  · intro P req r n heq hok hw hturn
    by_cases hlim : MAX_TURNS ≤ _turn_count_from_history (processedHistory req.history)
    · rw [ai_move_limit P req hlim] at heq
      simp only [Prod.mk.injEq, ApiResult.resp.injEq] at heq
      obtain ⟨hr, -⟩ := heq
      rw [← hr] at hok
      exact Bool.noConfusion hok
    · have hlt := Nat.not_le.mp hlim
      by_cases hv : (validate_user_move req.user_word
          (expectedHeadOf (processedHistory req.history))
          (setFromList (processedHistory req.history))).1 = false
      · rw [ai_move_invalid_user P req hlt hv] at heq
        simp only [Prod.mk.injEq, ApiResult.resp.injEq] at heq
        obtain ⟨hr, -⟩ := heq
        rw [← hr] at hok
        exact Bool.noConfusion hok
      · have hv' : (validate_user_move req.user_word
            (expectedHeadOf (processedHistory req.history))
            (setFromList (processedHistory req.history))).1 = true := by
          rcases hx : (validate_user_move req.user_word
            (expectedHeadOf (processedHistory req.history))
            (setFromList (processedHistory req.history))).1 with _ | _
          · exact absurd hx hv
          · rfl
        rcases hh : next_required_head (to_hiragana req.user_word) with _ | head
        · rw [ai_move_tail_none P req hlt hv' hh] at heq
          simp at heq
        · rw [ai_move_valid_head P req head hlt hv' hh] at heq
          by_cases ht : truthyStr (finalAiCandidate P head
              (setAdd (setFromList (processedHistory req.history))
                (to_hiragana req.user_word))) = false
          · rw [ai_move_phase2_no_candidate P (to_hiragana req.user_word)
              (_turn_count_from_history (processedHistory req.history))
              (processedHistory req.history ++ [to_hiragana req.user_word])
              (setAdd (setFromList (processedHistory req.history))
                (to_hiragana req.user_word)) head ht] at heq
            simp only [Prod.mk.injEq, ApiResult.resp.injEq] at heq
            obtain ⟨hr, -⟩ := heq
            rw [← hr] at hw
            simp at hw
          · have ht' : truthyStr (finalAiCandidate P head
                (setAdd (setFromList (processedHistory req.history))
                  (to_hiragana req.user_word))) = true := by
              rcases hx : truthyStr (finalAiCandidate P head
                (setAdd (setFromList (processedHistory req.history))
                  (to_hiragana req.user_word))) with _ | _
              · exact absurd hx ht
              · rfl
            by_cases hva : (validate_ai_move ((finalAiCandidate P head
                (setAdd (setFromList (processedHistory req.history))
                  (to_hiragana req.user_word))).getD []) head
                (setAdd (setFromList (processedHistory req.history))
                  (to_hiragana req.user_word))).1 = false
            · rw [ai_move_phase2_invalid_candidate P (to_hiragana req.user_word)
                (_turn_count_from_history (processedHistory req.history))
                (processedHistory req.history ++ [to_hiragana req.user_word])
                (setAdd (setFromList (processedHistory req.history))
                  (to_hiragana req.user_word)) head ht' hva] at heq
              simp only [Prod.mk.injEq, ApiResult.resp.injEq] at heq
              obtain ⟨hr, -⟩ := heq
              rw [← hr] at hw
              simp at hw
            · have hva' : (validate_ai_move ((finalAiCandidate P head
                  (setAdd (setFromList (processedHistory req.history))
                    (to_hiragana req.user_word))).getD []) head
                  (setAdd (setFromList (processedHistory req.history))
                    (to_hiragana req.user_word))).1 = true := by
                rcases hx : (validate_ai_move ((finalAiCandidate P head
                  (setAdd (setFromList (processedHistory req.history))
                    (to_hiragana req.user_word))).getD []) head
                  (setAdd (setFromList (processedHistory req.history))
                    (to_hiragana req.user_word))).1 with _ | _
                · exact absurd hx hva
                · rfl
              rw [ai_move_phase2_accept P (to_hiragana req.user_word)
                (_turn_count_from_history (processedHistory req.history))
                (processedHistory req.history ++ [to_hiragana req.user_word])
                (setAdd (setFromList (processedHistory req.history))
                  (to_hiragana req.user_word)) head ht' hva'] at heq
              simp only [Prod.mk.injEq, ApiResult.resp.injEq] at heq
              obtain ⟨hr, -⟩ := heq
              have htc : r.turn_count = _turn_count_from_history
                  ((processedHistory req.history ++ [to_hiragana req.user_word]) ++
                    [(finalAiCandidate P head
                      (setAdd (setFromList (processedHistory req.history))
                        (to_hiragana req.user_word))).getD []]) := by
                rw [← hr]
              rw [htc] at hturn
              have hd := decide_eq_true hturn
              have hgo : r.game_over = decide (_turn_count_from_history
                  ((processedHistory req.history ++ [to_hiragana req.user_word]) ++
                    [(finalAiCandidate P head
                      (setAdd (setFromList (processedHistory req.history))
                        (to_hiragana req.user_word))).getD []]) ≥ MAX_TURNS) := by
                rw [← hr]
              have hwin : r.winner = (if (decide (_turn_count_from_history
                  ((processedHistory req.history ++ [to_hiragana req.user_word]) ++
                    [(finalAiCandidate P head
                      (setAdd (setFromList (processedHistory req.history))
                        (to_hiragana req.user_word))).getD []]) ≥ MAX_TURNS)) = true
                  then some "none" else none) := by
                rw [← hr]
              constructor
              · rw [hgo]
                exact hd
              · rw [hwin, hd]
                rfl

set_option maxRecDepth 4000 in
/-- Witness for C5: a 40-entry history is refused with winner `none`
regardless of the candidate, and the accepted exchange completing turn
20 (38 prior entries, player こおり, fallback opponent りす) ends with
`game_over` and winner `none`. -/
theorem C5_turn_count_and_round_limit_witness :
    ai_move ⟨fun _ => none, fun _ => 0⟩
        ⟨List.replicate 40 (pystr "ねこ"), pystr "こま"⟩ =
      (.resp { ok := false,
               message := "20かいまでだよ。さいしょからやりなおしてね",
               used := setFromList (processedHistory
                 (List.replicate 40 (pystr "ねこ"))),
               turn_count := _turn_count_from_history (processedHistory
                 (List.replicate 40 (pystr "ねこ"))),
               game_over := true, winner := some "none" }, 0) ∧
    (({ ok := true, message := "きょうはここまで！またあしたあそぼうね",
        user_word := some (pystr "こおり"), ai_word := some (pystr "りす"),
        next_head_for_user := some 0x3059,
        used := [pystr "ねこ", pystr "こおり", pystr "りす"],
        turn_count := 20, game_over := true,
        winner := some "none" } : MoveResponse).game_over = true ∧
      ({ ok := true, message := "きょうはここまで！またあしたあそぼうね",
         user_word := some (pystr "こおり"), ai_word := some (pystr "りす"),
         next_head_for_user := some 0x3059,
         used := [pystr "ねこ", pystr "こおり", pystr "りす"],
         turn_count := 20, game_over := true,
         winner := some "none" } : MoveResponse).winner = some "none") :=
  ⟨(C5_turn_count_and_round_limit.2.1 ⟨fun _ => none, fun _ => 0⟩
      ⟨List.replicate 40 (pystr "ねこ"), pystr "こま"⟩ (by decide)).1,
   C5_turn_count_and_round_limit.2.2 ⟨fun _ => none, fun _ => 0⟩
     ⟨List.replicate 38 (pystr "ねこ"), pystr "こおり"⟩
     { ok := true, message := "きょうはここまで！またあしたあそぼうね",
       user_word := some (pystr "こおり"), ai_word := some (pystr "りす"),
       next_head_for_user := some 0x3059,
       used := [pystr "ねこ", pystr "こおり", pystr "りす"],
       turn_count := 20, game_over := true, winner := some "none" } 1
     (by decide) (by decide) (by decide) (by decide)⟩

/-- C10: entry processing drops raw history entries equal to the empty
string; a non-empty raw entry normalizing to the empty word is retained
in the processed history and in the used set; when it is the last
retained entry the required head is `none`; and with no required head a
candidate passing checks 1–4 is accepted with no head-match check. -/
theorem C10_empty_normalized_entries :
    (∀ l1 l2 : List PyStr, processedHistory (l1 ++ ([] : PyStr) :: l2) =
       processedHistory (l1 ++ l2)) ∧
    (∀ (l : List PyStr) (w : PyStr), ¬w.isEmpty = true → to_hiragana w = [] →
       processedHistory (l ++ [w]) = processedHistory l ++ [[]] ∧
       ([] : PyStr) ∈ setFromList (processedHistory (l ++ [w])) ∧
       expectedHeadOf (processedHistory (l ++ [w])) = none) ∧
    (∀ (cand : PyStr) (used : List PyStr),
       (to_hiragana cand).isEmpty = false →
       is_hiragana_only (to_hiragana cand) = true →
       to_hiragana cand ∉ used →
       violates_end_n (to_hiragana cand) = false →
       validate_user_move cand none used = (true, "OK")) := by
  refine ⟨?_, ?_, ?_⟩
  · intro l1 l2
    unfold processedHistory
    rw [List.filter_append, List.filter_append, List.filter_cons]
    simp
  · intro l w hne hnorm
    have hwkeep : (!w.isEmpty) = true := by
      rw [Bool.eq_false_iff.mpr hne]
      rfl
    have hfil : processedHistory (l ++ [w]) = processedHistory l ++ [[]] := by
      unfold processedHistory
      rw [List.filter_append, List.filter_cons, List.map_append]
      rw [hwkeep]
      simp [hnorm]
    refine ⟨hfil, ?_, ?_⟩
    · rw [mem_setFromList, hfil]
      exact List.mem_append.mpr (Or.inr (List.mem_singleton.mpr rfl))
    · unfold expectedHeadOf
      rw [hfil, List.getLast?_concat]
      rfl
  · intro cand used h1 h2 h3 h4
    unfold validate_user_move
    rw [if_neg (fun hc => by rw [h1] at hc; exact Bool.noConfusion hc),
      if_neg (fun hc => by rw [h2] at hc; exact Bool.noConfusion hc),
      if_neg h3,
      if_neg (fun hc => by rw [h4] at hc; exact Bool.noConfusion hc)]

/-- Witness for C10: raw entry "abc" (no syllabary characters) after
ねこ yields an empty processed word, an empty word in the used set, and
no required head; the candidate ねこ with no required head is
accepted. -/
theorem C10_empty_normalized_entries_witness :
    (processedHistory ([pystr "ねこ"] ++ [pystr "abc"]) =
       processedHistory [pystr "ねこ"] ++ [[]] ∧
     ([] : PyStr) ∈ setFromList (processedHistory
       ([pystr "ねこ"] ++ [pystr "abc"])) ∧
     expectedHeadOf (processedHistory ([pystr "ねこ"] ++ [pystr "abc"])) =
       none) ∧
    validate_user_move (pystr "ねこ") none [] = (true, "OK") :=
  ⟨C10_empty_normalized_entries.2.1 [pystr "ねこ"] (pystr "abc")
     (by decide) (by decide),
   C10_empty_normalized_entries.2.2 (pystr "ねこ") []
     (by decide) (by decide) (by decide) (by decide)⟩
